import Mathlib

/-!
Shallow embedding of the EuroMillions-Analysis frequency-analysis and
recommendation engine (`app/analysis/number_analyzer.py`), together with
proofs about it.

Modelling conventions:
* A pandas row of the draws DataFrame becomes a `Draw` record; the DataFrame
  itself becomes a `List Draw` ordered as loaded.
* Calendar dates become `Int` day numbers, so `today - timedelta(days=k)`
  becomes `today - k`.
* Python dictionaries keyed by the numbers `1..max_value` become association
  lists in key order (`List.range' 1 max_value`).
* Fallible code is embedded in `Except String`: an uncaught Python exception
  becomes `.error` with the exception name.
* `logger.warning` diagnostics that a claim mentions are returned alongside
  the value as a `List String`.
* Percentages are exact rationals (`ℚ`); the float rounding of CPython plays
  no role in any claim.
-/

namespace EuroMillions

/-- `NUM_MAIN_NUMBERS` from the source. -/
def NUM_MAIN_NUMBERS : Nat := 5

/-- `NUM_LUCKY_STARS` from the source. -/
def NUM_LUCKY_STARS : Nat := 2

/-- `MAX_MAIN_NUMBER` from the source. -/
def MAX_MAIN_NUMBER : Nat := 50

/-- `MAX_LUCKY_STAR` from the source. -/
def MAX_LUCKY_STAR : Nat := 12

/-- One row of the draws DataFrame: draw date (as day number) and the two
number families, as built in `_load_data`. -/
structure Draw where
  draw_date : Int
  main_numbers : List Nat
  lucky_stars : List Nat
deriving Repr, DecidableEq

/-- `_filter_by_time_period`: keeps draws with `draw_date >= cutoff`; the
second component is the list of warnings logged.  An unrecognized time
period returns the full history with a warning. -/
def filter_by_time_period (today : Int) (draws : List Draw) (time_period : String) :
    List Draw × List String :=
  if time_period = "all" then (draws, [])
  else if time_period = "10years" then
    (draws.filter (fun d => decide (today - 3650 ≤ d.draw_date)), [])
  else if time_period = "year" then
    (draws.filter (fun d => decide (today - 365 ≤ d.draw_date)), [])
  else if time_period = "6months" then
    (draws.filter (fun d => decide (today - 182 ≤ d.draw_date)), [])
  else if time_period = "3months" then
    (draws.filter (fun d => decide (today - 91 ≤ d.draw_date)), [])
  else (draws, ["Unknown time period: " ++ time_period ++ ", using all data"])

/-- The family-specific numbers of one draw (`row['main_numbers']` or
`row['lucky_stars']` depending on `number_type`). -/
def drawNumbers (number_type : String) (d : Draw) : List Nat :=
  if number_type = "main" then d.main_numbers else d.lucky_stars

/-- All numbers of the chosen family contributed by the filtered draws,
in iteration order. -/
def familyNumbers (df : List Draw) (number_type : String) : List Nat :=
  (df.map (drawNumbers number_type)).flatten

/-- `hot_count = int(max_value * 0.2)`.  For the two values the program uses
(50 and 12) the CPython float expression equals the exact floor, which is
`max_value * 2 / 10` in natural division. -/
def hot_count (max_value : Nat) : Nat := max_value * 2 / 10

/-- `warm_count = int(max_value * 0.3)`; equals the exact floor for the two
values the program uses. -/
def warm_count (max_value : Nat) : Nat := max_value * 3 / 10

/-- `cool_count = int(max_value * 0.3)`. -/
def cool_count (max_value : Nat) : Nat := max_value * 3 / 10

/-- The status string assigned to the entry at position `i` of the
descending-sorted `(number, count)` list in `_count_number_frequency`. -/
def statusForIndex (max_value i : Nat) : String :=
  if i < hot_count max_value then "hot"
  else if i < hot_count max_value + warm_count max_value then "warm"
  else if i < hot_count max_value + warm_count max_value + cool_count max_value then "cool"
  else "cold"

/-- One step of the stable descending insertion used to model CPython
`sorted(pairs, key=count, reverse=True)`: `x` is placed before the first
element whose count is not greater than the count of `x`, so elements with
equal counts keep their original relative order. -/
def insertDesc (x : Nat × Nat) : List (Nat × Nat) → List (Nat × Nat)
  | [] => [x]
  | y :: ys => if x.2 < y.2 then y :: insertDesc x ys else x :: y :: ys

/-- Stable sort of `(number, count)` pairs by count descending, modelling
`sorted(frequency.items(), key=lambda x: count, reverse=True)`. -/
def sortByCountDesc : List (Nat × Nat) → List (Nat × Nat)
  | [] => []
  | x :: xs => insertDesc x (sortByCountDesc xs)

/-- The `(number, count)` pairs of `frequency.items()`, in dictionary
insertion order `1..max_value`. -/
def freqPairs (nums : List Nat) (max_value : Nat) : List (Nat × Nat) :=
  (List.range' 1 max_value).map (fun n => (n, nums.count n))

/-- `sorted_numbers` in `_count_number_frequency`. -/
def sorted_numbers (nums : List Nat) (max_value : Nat) : List (Nat × Nat) :=
  sortByCountDesc (freqPairs nums max_value)

/-- The position of number `n` in `sorted_numbers`; the enumerate index that
decides the status of `n`. -/
def rank (nums : List Nat) (max_value n : Nat) : Nat :=
  (sorted_numbers nums max_value).findIdx (fun p => p.1 == n)

/-- One value of the final `frequency` dictionary. -/
structure FreqEntry where
  num : Nat
  count : Nat
  percentage : ℚ
  status : String
deriving Repr, DecidableEq

/-- The final `frequency` dictionary of `_count_number_frequency`, in key
order `1..max_value`, once counting, percentages and status assignment have
all happened. -/
def freqTable (nums : List Nat) (draws_count max_value : Nat) : List FreqEntry :=
  (List.range' 1 max_value).map (fun n =>
    { num := n
      count := nums.count n
      percentage := ((nums.count n : ℚ) / (draws_count : ℚ)) * 100
      status := statusForIndex max_value (rank nums max_value n) })

/-- `_count_number_frequency`.  A number outside `1..max_value` raises
`KeyError` on `frequency[num] += 1`; an empty filtered DataFrame makes
`draws_count = 0` and the percentage computation raises
`ZeroDivisionError`. -/
def count_number_frequency (df : List Draw) (number_type : String) (max_value : Nat) :
    Except String (List FreqEntry) :=
  if (familyNumbers df number_type).any (fun n => decide (n < 1) || decide (max_value < n)) then
    .error "KeyError"
  else if (if number_type = "main" then df.length * NUM_MAIN_NUMBERS
      else df.length * NUM_LUCKY_STARS) = 0 then
    .error "ZeroDivisionError"
  else
    .ok (freqTable (familyNumbers df number_type)
      (if number_type = "main" then df.length * NUM_MAIN_NUMBERS
       else df.length * NUM_LUCKY_STARS) max_value)

/-- `analyze_number_frequency`: returns a pair of empty tables when no draws
are loaded, otherwise filters by time period and counts both families. -/
def analyze_number_frequency (today : Int) (draws : List Draw) (time_period : String) :
    Except String (List FreqEntry × List FreqEntry) :=
  if draws.length = 0 then .ok ([], [])
  else
    match count_number_frequency (filter_by_time_period today draws time_period).1
        "main" MAX_MAIN_NUMBER with
    | .error e => .error e
    | .ok m =>
      match count_number_frequency (filter_by_time_period today draws time_period).1
          "lucky_stars" MAX_LUCKY_STAR with
      | .error e => .error e
      | .ok s => .ok (m, s)

/-- The result dictionary of `get_hot_cold_recommendations`.  When the
frequency tables are empty the Python dictionary carries only the two number
lists; we model that case with empty strings in the two tag fields. -/
structure Recommendation where
  main_numbers : List Nat
  lucky_stars : List Nat
  time_period : String
  strategy : String
deriving Repr, DecidableEq

/-- The numbers of one status group, as built in
`get_hot_cold_recommendations`: the dictionary iteration appends pairs in
ascending key order, then each group is sorted by count descending with the
stable list sort. -/
def group_by_status (table : List FreqEntry) (status : String) : List (Nat × Nat) :=
  sortByCountDesc ((table.filter (fun e => e.status == status)).map (fun e => (e.num, e.count)))

/-- `_select_numbers`: walks the `(status, count)` plan, takes the first
`min count available` numbers of each group and records a shortfall warning
when a group is too small. -/
def select_numbers (numbers_by_status : String → List (Nat × Nat))
    (selection_counts : List (String × Nat)) : List Nat × List String :=
  selection_counts.foldl
    (fun acc sc =>
      let available := (numbers_by_status sc.1).map (fun n => n.1)
      let to_select := min sc.2 available.length
      (acc.1 ++ available.take to_select,
       if to_select < sc.2 then
         acc.2 ++ ["Not enough " ++ sc.1 ++ " numbers available"]
       else acc.2))
    ([], [])

/-- The `(status, count)` plan the strategy branch of
`get_hot_cold_recommendations` uses for main numbers; every strategy other
than hot, cold and mixed falls into the balanced else-branch. -/
def strategyMainPlan (strategy : String) : List (String × Nat) :=
  if strategy = "hot" then [("hot", 4), ("warm", 1)]
  else if strategy = "cold" then [("cold", 4), ("cool", 1)]
  else if strategy = "mixed" then [("hot", 2), ("cold", 3)]
  else [("hot", 2), ("warm", 1), ("cool", 1), ("cold", 1)]

/-- The plan used for lucky stars. -/
def strategyStarPlan (strategy : String) : List (String × Nat) :=
  if strategy = "hot" then [("hot", 2)]
  else if strategy = "cold" then [("cold", 2)]
  else if strategy = "mixed" then [("hot", 1), ("cold", 1)]
  else [("hot", 1), ("cold", 1)]

/-- `get_hot_cold_recommendations`.  The second component of the `.ok`
result collects the shortfall warnings of the two `_select_numbers` calls. -/
def get_hot_cold_recommendations (today : Int) (draws : List Draw)
    (time_period strategy : String) : Except String (Recommendation × List String) :=
  match analyze_number_frequency today draws time_period with
  | .error e => .error e
  | .ok (main_numbers_freq, lucky_stars_freq) =>
    if main_numbers_freq.isEmpty || lucky_stars_freq.isEmpty then
      .ok ({ main_numbers := [], lucky_stars := [], time_period := "", strategy := "" }, [])
    else
      let main_picks := select_numbers (group_by_status main_numbers_freq)
        (strategyMainPlan strategy)
      let lucky_picks := select_numbers (group_by_status lucky_stars_freq)
        (strategyStarPlan strategy)
      .ok ({ main_numbers := List.insertionSort (· ≤ ·) main_picks.1
             lucky_stars := List.insertionSort (· ≤ ·) lucky_picks.1
             time_period := time_period
             strategy := strategy },
           main_picks.2 ++ lucky_picks.2)

/-- The possible outcomes of `generate_prediction_model`.
`insufficientData` is the dictionary with `success` False and error string
"Insufficient data"; `insufficientAfterPrep` the one with error
"Insufficient data after preparation"; `mlPipeline` stands for the
scikit-learn training and prediction path, which no claim touches and which
is not modelled further. -/
inductive PredictionOutcome where
  | insufficientData : PredictionOutcome
  | insufficientAfterPrep : PredictionOutcome
  | mlPipeline : PredictionOutcome
deriving Repr, DecidableEq

/-- The number of samples `_prepare_prediction_data` builds: one per index
in `range(lookback_periods, len(draws))`. -/
def prepare_prediction_data_length (draws : List Draw) (lookback_periods : Nat) : Nat :=
  draws.length - lookback_periods

/-- The control flow of `generate_prediction_model` up to the point where
the machine-learning pipeline starts. -/
def generate_prediction_model (draws : List Draw) (lookback_periods : Nat) :
    PredictionOutcome :=
  if draws.length < lookback_periods + 10 then .insufficientData
  else if prepare_prediction_data_length draws lookback_periods < 10 then
    .insufficientAfterPrep
  else .mlPipeline

/-- Models `list(set(predictions))` for a list of machine predictions.
CPython set iteration order is implementation defined; we keep first
occurrences in list order.  Every property proved about the result (length,
distinctness, membership) is invariant under reordering, and for the
single-element sets of the claims the order is exact. -/
def pythonSetList (l : List Nat) : List Nat :=
  l.foldl (fun acc x => if x ∈ acc then acc else acc ++ [x]) []

/-- The `while len(unique_predictions) < required_count` loop of
`_ensure_unique_predictions`.  `np.random.randint(1, max_value + 1)` is
modelled by reading the raw random stream `rng` at the next index and
mapping it into `1..max_value`; `fuel` bounds the number of draws taken
from the stream, and exhausting it yields `none` (the Python loop would
still be running). -/
def fillUnique (rng : Nat → Nat) (max_value required_count : Nat) :
    Nat → Nat → List Nat → Option (List Nat)
  | 0, _, acc => if acc.length < required_count then none else some acc
  | fuel + 1, k, acc =>
    if acc.length < required_count then
      let candidate := rng k % max_value + 1
      if candidate ∈ acc then fillUnique rng max_value required_count fuel (k + 1) acc
      else fillUnique rng max_value required_count fuel (k + 1) (acc ++ [candidate])
    else some acc

/-- `_ensure_unique_predictions`: deduplicate, fill with fresh random
numbers until `required_count` values are present, truncate when too many. -/
def ensure_unique_predictions (rng : Nat → Nat) (fuel : Nat) (predictions : List Nat)
    (max_value required_count : Nat) : Option (List Nat) :=
  match fillUnique rng max_value required_count fuel 0 (pythonSetList predictions) with
  | none => none
  | some unique =>
    some (if required_count < unique.length then unique.take required_count else unique)

/-- The hotness level of a status string, hot being the hottest; used only
to state the claims about tiers. -/
def tierLevel (status : String) : Nat :=
  if status = "hot" then 0
  else if status = "warm" then 1
  else if status = "cool" then 2
  else 3

/-- A draw as the data model describes it: 5 distinct main numbers in 1..50
and 2 distinct lucky stars in 1..12. -/
def validDraw (d : Draw) : Prop :=
  d.main_numbers.length = 5 ∧ d.main_numbers.Nodup ∧
    (∀ x ∈ d.main_numbers, 1 ≤ x ∧ x ≤ 50) ∧
    d.lucky_stars.length = 2 ∧ d.lucky_stars.Nodup ∧
    (∀ x ∈ d.lucky_stars, 1 ≤ x ∧ x ≤ 12)

instance (d : Draw) : Decidable (validDraw d) := by
  unfold validDraw; infer_instance

/-- Replaces the strategy tag of a recommendation result by the empty
string; used to state that an unknown strategy is indistinguishable from
the balanced one apart from the echoed tag. -/
def stripStrategy :
    Except String (Recommendation × List String) →
      Except String (Recommendation × List String)
  | .error e => .error e
  | .ok (r, w) => .ok ({ r with strategy := "" }, w)

/-- The strict order that the stable descending sort realizes on the pairs
of `frequency.items()`: larger count first, equal counts in ascending
number order (the original dictionary order). -/
def rankOrder (p q : Nat × Nat) : Prop :=
  q.2 < p.2 ∨ (p.2 = q.2 ∧ p.1 < q.1)

/-! ### Lemmas about the stable descending sort -/

theorem insertDesc_perm (x : Nat × Nat) (l : List (Nat × Nat)) :
    List.Perm (insertDesc x l) (x :: l) := by
  induction l with
  | nil => exact List.Perm.refl _
  | cons y ys ih =>
    unfold insertDesc
    split
    · exact (ih.cons y).trans (List.Perm.swap x y ys)
    · exact List.Perm.refl _

theorem sortByCountDesc_perm (l : List (Nat × Nat)) :
    List.Perm (sortByCountDesc l) l := by
  induction l with
  | nil => exact List.Perm.refl _
  | cons x xs ih => exact (insertDesc_perm x (sortByCountDesc xs)).trans (ih.cons x)

theorem insertDesc_pairwise (x : Nat × Nat) (l : List (Nat × Nat))
    (hl : l.Pairwise rankOrder) (hx : ∀ y ∈ l, y.2 = x.2 → x.1 < y.1) :
    (insertDesc x l).Pairwise rankOrder := by
  induction l with
  | nil => simp [insertDesc]
  | cons y ys ih =>
    rw [List.pairwise_cons] at hl
    unfold insertDesc
    split
    · next hlt =>
      rw [List.pairwise_cons]
      refine ⟨?_, ih hl.2 (fun z hz hzc => hx z (List.mem_cons_of_mem y hz) hzc)⟩
      intro z hz
      rcases List.mem_cons.mp ((insertDesc_perm x ys).subset hz) with hzx | hz'
      · subst hzx
        exact Or.inl hlt
      · exact hl.1 z hz'
    · next hge =>
      rw [List.pairwise_cons]
      refine ⟨?_, List.pairwise_cons.mpr hl⟩
      intro z hz
      rcases List.mem_cons.mp hz with hzy | hz'
      · subst hzy
        rcases Nat.lt_or_ge z.2 x.2 with h | h
        · exact Or.inl h
        · have heq : x.2 = z.2 := by omega
          exact Or.inr ⟨heq, hx z (List.mem_cons_self z ys) heq.symm⟩
      · rcases hl.1 z hz' with h | h
        · rcases Nat.lt_or_ge z.2 x.2 with h2 | h2
          · exact Or.inl h2
          · have hzx : z.2 = x.2 := by omega
            exact Or.inr ⟨hzx.symm, hx z (List.mem_cons_of_mem y hz') hzx⟩
        · rcases Nat.lt_or_ge z.2 x.2 with h2 | h2
          · exact Or.inl h2
          · have hzx : z.2 = x.2 := by omega
            exact Or.inr ⟨hzx.symm, hx z (List.mem_cons_of_mem y hz') hzx⟩

theorem sortByCountDesc_pairwise (l : List (Nat × Nat))
    (h : l.Pairwise (fun p q => p.2 = q.2 → p.1 < q.1)) :
    (sortByCountDesc l).Pairwise rankOrder := by
  induction l with
  | nil => simp [sortByCountDesc]
  | cons x xs ih =>
    rw [List.pairwise_cons] at h
    exact insertDesc_pairwise x _ (ih h.2)
      (fun y hy hyc =>
        h.1 y ((sortByCountDesc_perm xs).subset hy) hyc.symm)

/-! ### Lemmas about `sorted_numbers` and `rank` -/

theorem freqPairs_length (nums : List Nat) (mx : Nat) :
    (freqPairs nums mx).length = mx := by
  simp [freqPairs]

theorem freqPairs_map_fst (nums : List Nat) (mx : Nat) :
    (freqPairs nums mx).map Prod.fst = List.range' 1 mx := by
  unfold freqPairs
  rw [List.map_map]
  have h : (Prod.fst ∘ fun n : Nat => (n, nums.count n)) = id := rfl
  rw [h, List.map_id]

theorem freqPairs_pairwise (nums : List Nat) (mx : Nat) :
    (freqPairs nums mx).Pairwise (fun p q => p.2 = q.2 → p.1 < q.1) := by
  unfold freqPairs
  refine List.Pairwise.map _ ?_ (List.pairwise_lt_range' 1 mx)
  intro a b hab _
  simpa using hab

theorem sorted_numbers_length (nums : List Nat) (mx : Nat) :
    (sorted_numbers nums mx).length = mx :=
  ((sortByCountDesc_perm _).length_eq).trans (freqPairs_length nums mx)

theorem sorted_numbers_pairwise (nums : List Nat) (mx : Nat) :
    (sorted_numbers nums mx).Pairwise rankOrder :=
  sortByCountDesc_pairwise _ (freqPairs_pairwise nums mx)

theorem sorted_numbers_fst_nodup (nums : List Nat) (mx : Nat) :
    ((sorted_numbers nums mx).map Prod.fst).Nodup := by
  have hp : List.Perm ((sorted_numbers nums mx).map Prod.fst)
      ((freqPairs nums mx).map Prod.fst) := (sortByCountDesc_perm _).map _
  rw [freqPairs_map_fst] at hp
  exact hp.nodup_iff.mpr (List.nodup_range' 1 mx)

theorem mem_sorted_numbers (nums : List Nat) (mx n : Nat) (hn : n ∈ List.range' 1 mx) :
    (n, nums.count n) ∈ sorted_numbers nums mx := by
  apply (sortByCountDesc_perm _).mem_iff.mpr
  exact List.mem_map_of_mem _ hn

theorem rank_lt (nums : List Nat) (mx n : Nat) (hn : n ∈ List.range' 1 mx) :
    rank nums mx n < mx := by
  have hex : ∃ x ∈ sorted_numbers nums mx, (fun p : Nat × Nat => p.1 == n) x =
      true := ⟨(n, nums.count n), mem_sorted_numbers nums mx n hn, by simp⟩
  have h := List.findIdx_lt_length_of_exists hex
  rw [sorted_numbers_length] at h
  exact h

theorem rank_lt_length (nums : List Nat) (mx n : Nat) (hn : n ∈ List.range' 1 mx) :
    rank nums mx n < (sorted_numbers nums mx).length := by
  rw [sorted_numbers_length]
  exact rank_lt nums mx n hn

theorem rank_get_fst (nums : List Nat) (mx n : Nat)
    (h : rank nums mx n < (sorted_numbers nums mx).length) :
    ((sorted_numbers nums mx).get ⟨rank nums mx n, h⟩).1 = n := by
  have h' : List.findIdx (fun p : Nat × Nat => p.1 == n) (sorted_numbers nums mx) <
      (sorted_numbers nums mx).length := h
  have h2 := @List.findIdx_getElem _ (fun p : Nat × Nat => p.1 == n)
    (sorted_numbers nums mx) h'
  have h3 : ((sorted_numbers nums mx).get
      ⟨List.findIdx (fun p : Nat × Nat => p.1 == n) (sorted_numbers nums mx), h'⟩).1 = n := by
    rw [List.get_eq_getElem]
    simpa using h2
  exact h3

theorem rank_get_eq (nums : List Nat) (mx n : Nat) (hn : n ∈ List.range' 1 mx)
    (h : rank nums mx n < (sorted_numbers nums mx).length) :
    (sorted_numbers nums mx).get ⟨rank nums mx n, h⟩ = (n, nums.count n) := by
  have h1 : (sorted_numbers nums mx).get ⟨rank nums mx n, h⟩ ∈ sorted_numbers nums mx :=
    List.get_mem _ _ h
  exact List.inj_on_of_nodup_map (sorted_numbers_fst_nodup nums mx) h1
    (mem_sorted_numbers nums mx n hn) (rank_get_fst nums mx n h)

theorem rank_inj (nums : List Nat) (mx : Nat) :
    ∀ a ∈ List.range' 1 mx, ∀ b ∈ List.range' 1 mx,
      rank nums mx a = rank nums mx b → a = b := by
  intro a ha b hb hab
  have hla := rank_lt_length nums mx a ha
  have hlb := rank_lt_length nums mx b hb
  have hga := rank_get_fst nums mx a hla
  have hgb := rank_get_fst nums mx b hlb
  have hfin : (⟨rank nums mx a, hla⟩ : Fin (sorted_numbers nums mx).length) =
      ⟨rank nums mx b, hlb⟩ := Fin.ext hab
  rw [← hga, ← hgb, hfin]

theorem rank_map_perm (nums : List Nat) (mx : Nat) :
    List.Perm ((List.range' 1 mx).map (rank nums mx)) (List.range mx) := by
  have hnd : ((List.range' 1 mx).map (rank nums mx)).Nodup :=
    List.Nodup.map_on (rank_inj nums mx) (List.nodup_range' 1 mx)
  have hsub : ((List.range' 1 mx).map (rank nums mx)) ⊆ List.range mx := by
    intro i hi
    rcases List.mem_map.mp hi with ⟨n, hn, rfl⟩
    exact List.mem_range.mpr (rank_lt nums mx n hn)
  exact (List.subperm_of_subset hnd hsub).perm_of_length_le (by simp)

/-! ### Lemmas about `freqTable` -/

theorem freqTable_map_num (nums : List Nat) (dc mx : Nat) :
    (freqTable nums dc mx).map (fun e => e.num) = List.range' 1 mx := by
  unfold freqTable
  rw [List.map_map]
  have h : ((fun e : FreqEntry => e.num) ∘ fun n =>
      ({ num := n, count := nums.count n,
         percentage := ((nums.count n : ℚ) / (dc : ℚ)) * 100,
         status := statusForIndex mx (rank nums mx n) } : FreqEntry)) = id := rfl
  rw [h, List.map_id]

theorem freqTable_length (nums : List Nat) (dc mx : Nat) :
    (freqTable nums dc mx).length = mx := by
  simp [freqTable]

theorem freqTable_countP (nums : List Nat) (dc mx : Nat) (s : String) :
    (freqTable nums dc mx).countP (fun e => e.status == s) =
      (List.range mx).countP (fun i => statusForIndex mx i == s) := by
  unfold freqTable
  rw [List.countP_map]
  have h1 : ((fun e : FreqEntry => e.status == s) ∘ (fun n =>
      ({ num := n, count := nums.count n,
         percentage := ((nums.count n : ℚ) / (dc : ℚ)) * 100,
         status := statusForIndex mx (rank nums mx n) } : FreqEntry))) =
      ((fun i => statusForIndex mx i == s) ∘ (rank nums mx)) := rfl
  rw [h1, ← List.countP_map]
  exact (rank_map_perm nums mx).countP_eq _

theorem statusForIndex_cases (mx i : Nat) :
    statusForIndex mx i = "hot" ∨ statusForIndex mx i = "warm" ∨
      statusForIndex mx i = "cool" ∨ statusForIndex mx i = "cold" := by
  unfold statusForIndex
  split
  · exact Or.inl rfl
  · split
    · exact Or.inr (Or.inl rfl)
    · split
      · exact Or.inr (Or.inr (Or.inl rfl))
      · exact Or.inr (Or.inr (Or.inr rfl))

theorem freqTable_status_cases (nums : List Nat) (dc mx : Nat) :
    ∀ e ∈ freqTable nums dc mx,
      e.status = "hot" ∨ e.status = "warm" ∨ e.status = "cool" ∨ e.status = "cold" := by
  intro e he
  rcases List.mem_map.mp he with ⟨n, _, rfl⟩
  exact statusForIndex_cases mx (rank nums mx n)

/-! ### Counting sums -/

theorem sum_map_add_distrib (r : List Nat) (f g : Nat → Nat) :
    (r.map (fun n => f n + g n)).sum = (r.map f).sum + (r.map g).sum := by
  induction r with
  | nil => simp
  | cons a t ih => simp [ih]; omega

theorem sum_indicator_zero (r : List Nat) (x : Nat) (hx : x ∉ r) :
    (r.map (fun n => if x == n then 1 else 0)).sum = 0 := by
  induction r with
  | nil => simp
  | cons a t ih =>
    have hax : ¬(x == a) = true := by
      simp only [beq_iff_eq]
      intro h
      exact hx (h ▸ List.mem_cons_self a t)
    simp only [List.map_cons, List.sum_cons, if_neg hax]
    have := ih (fun h => hx (List.mem_cons_of_mem a h))
    omega

theorem sum_indicator_one (r : List Nat) (x : Nat) (hr : r.Nodup) (hx : x ∈ r) :
    (r.map (fun n => if x == n then 1 else 0)).sum = 1 := by
  induction r with
  | nil => cases hx
  | cons a t ih =>
    rw [List.nodup_cons] at hr
    rcases List.mem_cons.mp hx with hax | hxt
    · subst hax
      rw [List.map_cons, List.sum_cons, if_pos (by simp : (x == x) = true)]
      have := sum_indicator_zero t x hr.1
      omega
    · have hax : ¬(x == a) = true := by
        simp only [beq_iff_eq]
        intro h
        exact hr.1 (h ▸ hxt)
      simp only [List.map_cons, List.sum_cons, if_neg hax]
      have := ih hr.2 hxt
      omega

theorem sum_counts (r : List Nat) (hr : r.Nodup) (nums : List Nat)
    (h : ∀ y ∈ nums, y ∈ r) :
    (r.map (fun n => nums.count n)).sum = nums.length := by
  induction nums with
  | nil => simp
  | cons x t ih =>
    have hxr : x ∈ r := h x (List.mem_cons_self x t)
    have hfun : (fun n => (x :: t).count n) =
        fun n => t.count n + if x == n then 1 else 0 := by
      funext n
      rw [List.count_cons]
    rw [hfun, sum_map_add_distrib, ih (fun y hy => h y (List.mem_cons_of_mem x hy)),
      sum_indicator_one r x hr hxr, List.length_cons]

theorem sum_const_list (l : List Nat) (c : Nat) (h : ∀ x ∈ l, x = c) :
    l.sum = l.length * c := by
  induction l with
  | nil => simp
  | cons a t ih =>
    rw [List.sum_cons, List.length_cons, ih (fun x hx => h x (List.mem_cons_of_mem a hx)),
      h a (List.mem_cons_self a t)]
    ring

theorem familyNumbers_length (df : List Draw) (nt : String) (k : Nat)
    (h : ∀ d ∈ df, (drawNumbers nt d).length = k) :
    (familyNumbers df nt).length = df.length * k := by
  unfold familyNumbers
  rw [List.length_flatten, List.map_map]
  have hs := sum_const_list ((df.map (List.length ∘ drawNumbers nt)).map id) k ?_
  · simpa using hs
  · intro x hx
    rcases List.mem_map.mp hx with ⟨y, hy, rfl⟩
    rcases List.mem_map.mp hy with ⟨d, hd, rfl⟩
    simpa using h d hd

theorem familyNumbers_mem (df : List Draw) (nt : String) (y : Nat)
    (hy : y ∈ familyNumbers df nt) : ∃ d ∈ df, y ∈ drawNumbers nt d := by
  unfold familyNumbers at hy
  rcases List.mem_flatten.mp hy with ⟨s, hs, hys⟩
  rcases List.mem_map.mp hs with ⟨d, hd, rfl⟩
  exact ⟨d, hd, hys⟩

/-! ### The `.ok` shape of `count_number_frequency` and
`analyze_number_frequency` on well-formed nonempty data -/

theorem validDraw_main_range (d : Draw) (hd : validDraw d) :
    ∀ x ∈ drawNumbers "main" d, 1 ≤ x ∧ x ≤ 50 := by
  intro x hx
  exact hd.2.2.1 x (by simpa [drawNumbers] using hx)

theorem validDraw_stars_range (d : Draw) (hd : validDraw d) :
    ∀ x ∈ drawNumbers "lucky_stars" d, 1 ≤ x ∧ x ≤ 12 := by
  intro x hx
  exact hd.2.2.2.2.2 x (by simpa [drawNumbers] using hx)

theorem count_number_frequency_main_ok (df : List Draw) (hne : df ≠ [])
    (hv : ∀ d ∈ df, validDraw d) :
    count_number_frequency df "main" MAX_MAIN_NUMBER =
      .ok (freqTable (familyNumbers df "main") (df.length * NUM_MAIN_NUMBERS) 50) := by
  have hany : (familyNumbers df "main").any
      (fun n => decide (n < 1) || decide (50 < n)) = false := by
    rw [List.any_eq_false]
    intro x hx
    rcases familyNumbers_mem df "main" x hx with ⟨d, hd, hxd⟩
    have hr := validDraw_main_range d (hv d hd) x hxd
    simp only [Bool.or_eq_true, decide_eq_true_eq]
    omega
  have hdc : ¬(df.length * NUM_MAIN_NUMBERS = 0) := by
    simp only [NUM_MAIN_NUMBERS, Nat.mul_eq_zero, List.length_eq_zero]
    intro h
    rcases h with h | h
    · exact hne h
    · omega
  simp only [count_number_frequency, hany, Bool.false_eq_true, if_false,
    eq_self_iff_true, if_true, if_neg hdc, MAX_MAIN_NUMBER]

theorem count_number_frequency_stars_ok (df : List Draw) (hne : df ≠ [])
    (hv : ∀ d ∈ df, validDraw d) :
    count_number_frequency df "lucky_stars" MAX_LUCKY_STAR =
      .ok (freqTable (familyNumbers df "lucky_stars") (df.length * NUM_LUCKY_STARS) 12) := by
  have hany : (familyNumbers df "lucky_stars").any
      (fun n => decide (n < 1) || decide (12 < n)) = false := by
    rw [List.any_eq_false]
    intro x hx
    rcases familyNumbers_mem df "lucky_stars" x hx with ⟨d, hd, hxd⟩
    have hr := validDraw_stars_range d (hv d hd) x hxd
    simp only [Bool.or_eq_true, decide_eq_true_eq]
    omega
  have hdc : ¬(df.length * NUM_LUCKY_STARS = 0) := by
    simp only [NUM_LUCKY_STARS, Nat.mul_eq_zero, List.length_eq_zero]
    intro h
    rcases h with h | h
    · exact hne h
    · omega
  have hsm : ¬("lucky_stars" = "main") := by decide
  simp only [count_number_frequency, hany, Bool.false_eq_true, if_false, if_neg hsm,
    if_neg hdc, MAX_LUCKY_STAR]

theorem filter_by_time_period_subset (today : Int) (draws : List Draw) (tp : String) :
    (filter_by_time_period today draws tp).1 ⊆ draws := by
  unfold filter_by_time_period
  split
  · exact fun d hd => hd
  · split
    · exact fun d hd => List.filter_subset' draws hd
    · split
      · exact fun d hd => List.filter_subset' draws hd
      · split
        · exact fun d hd => List.filter_subset' draws hd
        · split
          · exact fun d hd => List.filter_subset' draws hd
          · exact fun d hd => hd

theorem analyze_ok (today : Int) (draws : List Draw) (tp : String) (hne : draws ≠ [])
    (hv : ∀ d ∈ draws, validDraw d)
    (hf : (filter_by_time_period today draws tp).1 ≠ []) :
    analyze_number_frequency today draws tp =
      .ok (freqTable (familyNumbers (filter_by_time_period today draws tp).1 "main")
             ((filter_by_time_period today draws tp).1.length * NUM_MAIN_NUMBERS) 50,
           freqTable (familyNumbers (filter_by_time_period today draws tp).1 "lucky_stars")
             ((filter_by_time_period today draws tp).1.length * NUM_LUCKY_STARS) 12) := by
  have hvf : ∀ d ∈ (filter_by_time_period today draws tp).1, validDraw d :=
    fun d hd => hv d (filter_by_time_period_subset today draws tp hd)
  have hlen : ¬(draws.length = 0) := by
    simpa [List.length_eq_zero] using hne
  unfold analyze_number_frequency
  rw [if_neg hlen, count_number_frequency_main_ok _ hf hvf,
    count_number_frequency_stars_ok _ hf hvf]


/-! ### Lemmas about `group_by_status` and `select_numbers` -/

theorem group_by_status_length (table : List FreqEntry) (st : String) :
    (group_by_status table st).length = table.countP (fun e => e.status == st) := by
  unfold group_by_status
  rw [(sortByCountDesc_perm _).length_eq, List.length_map, List.countP_eq_length_filter]

theorem group_avail_perm (table : List FreqEntry) (st : String) :
    List.Perm ((group_by_status table st).map Prod.fst)
      ((table.filter (fun e => e.status == st)).map (fun e => e.num)) := by
  unfold group_by_status
  have hp := (sortByCountDesc_perm ((table.filter (fun e => e.status == st)).map
    (fun e => (e.num, e.count)))).map Prod.fst
  rw [List.map_map] at hp
  exact hp

theorem group_avail_nodup (nums : List Nat) (dc mx : Nat) (st : String) :
    ((group_by_status (freqTable nums dc mx) st).map Prod.fst).Nodup := by
  apply (group_avail_perm (freqTable nums dc mx) st).nodup_iff.mpr
  have hsub : List.Sublist
      (((freqTable nums dc mx).filter (fun e => e.status == st)).map (fun e => e.num))
      ((freqTable nums dc mx).map (fun e => e.num)) :=
    (List.filter_sublist _).map _
  rw [freqTable_map_num] at hsub
  exact hsub.nodup (List.nodup_range' 1 mx)

theorem group_avail_mem (table : List FreqEntry) (st : String) (n : Nat)
    (hn : n ∈ (group_by_status table st).map Prod.fst) :
    ∃ e ∈ table, e.num = n ∧ e.status = st := by
  have h2 := (group_avail_perm table st).subset hn
  rcases List.mem_map.mp h2 with ⟨e, he, rfl⟩
  rcases List.mem_filter.mp he with ⟨hmem, hst⟩
  exact ⟨e, hmem, rfl, by simpa using hst⟩

theorem group_avail_disjoint (nums : List Nat) (dc mx : Nat) (st1 st2 : String)
    (hne : st1 ≠ st2) (n : Nat)
    (h1 : n ∈ (group_by_status (freqTable nums dc mx) st1).map Prod.fst)
    (h2 : n ∈ (group_by_status (freqTable nums dc mx) st2).map Prod.fst) : False := by
  rcases group_avail_mem _ _ _ h1 with ⟨e1, he1, hn1, hs1⟩
  rcases group_avail_mem _ _ _ h2 with ⟨e2, he2, hn2, hs2⟩
  have hnodup : ((freqTable nums dc mx).map (fun e => e.num)).Nodup := by
    rw [freqTable_map_num]
    exact List.nodup_range' 1 mx
  have he : e1 = e2 := List.inj_on_of_nodup_map hnodup he1 he2 (by rw [hn1, hn2])
  exact hne (by rw [← hs1, he, hs2])

theorem select_numbers_foldl (g : String → List (Nat × Nat)) (plan : List (String × Nat)) :
    ∀ acc : List Nat × List String,
      (plan.foldl (fun acc sc =>
        (acc.1 ++ ((g sc.1).map (fun n => n.1)).take
            (min sc.2 ((g sc.1).map (fun n => n.1)).length),
         if min sc.2 ((g sc.1).map (fun n => n.1)).length < sc.2 then
           acc.2 ++ ["Not enough " ++ sc.1 ++ " numbers available"]
         else acc.2)) acc).1 =
      acc.1 ++ (plan.map (fun sc =>
        ((g sc.1).map (fun n => n.1)).take
          (min sc.2 ((g sc.1).map (fun n => n.1)).length))).flatten := by
  induction plan with
  | nil =>
    intro acc
    simp
  | cons sc rest ih =>
    intro acc
    rw [List.foldl_cons, ih, List.map_cons, List.flatten_cons, List.append_assoc]

theorem select_numbers_fst (g : String → List (Nat × Nat)) (plan : List (String × Nat)) :
    (select_numbers g plan).1 = (plan.map (fun sc =>
      ((g sc.1).map (fun n => n.1)).take
        (min sc.2 ((g sc.1).map (fun n => n.1)).length))).flatten := by
  have h := select_numbers_foldl g plan ([], [])
  simpa [select_numbers] using h

theorem select_numbers_length (g : String → List (Nat × Nat)) (plan : List (String × Nat))
    (h : ∀ sc ∈ plan, sc.2 ≤ (g sc.1).length) :
    (select_numbers g plan).1.length = (plan.map Prod.snd).sum := by
  rw [select_numbers_fst]
  induction plan with
  | nil => simp
  | cons sc rest ih =>
    rw [List.map_cons, List.flatten_cons, List.length_append, List.map_cons, List.sum_cons,
      ih (fun x hx => h x (List.mem_cons_of_mem sc hx))]
    have hlen : sc.2 ≤ ((g sc.1).map (fun n => n.1)).length := by
      rw [List.length_map]
      exact h sc (List.mem_cons_self sc rest)
    rw [Nat.min_eq_left hlen, List.length_take, Nat.min_eq_left hlen]

theorem select_numbers_nodup (g : String → List (Nat × Nat)) (plan : List (String × Nat))
    (hplan : (plan.map Prod.fst).Nodup)
    (hnd : ∀ st, ((g st).map Prod.fst).Nodup)
    (hdisj : ∀ st1 st2, st1 ≠ st2 → ∀ n, n ∈ (g st1).map Prod.fst →
      n ∈ (g st2).map Prod.fst → False) :
    (select_numbers g plan).1.Nodup := by
  rw [select_numbers_fst]
  induction plan with
  | nil => simp
  | cons sc rest ih =>
    rw [List.map_cons, List.nodup_cons] at hplan
    rw [List.map_cons, List.flatten_cons]
    apply List.Nodup.append
    · exact List.Sublist.nodup (List.take_sublist _ _) (hnd sc.1)
    · exact ih hplan.2
    · intro x hx hx2
      have hxavail : x ∈ (g sc.1).map Prod.fst :=
        List.mem_of_mem_take hx
      rcases List.mem_flatten.mp hx2 with ⟨seg, hseg, hxseg⟩
      rcases List.mem_map.mp hseg with ⟨sc2, hsc2, rfl⟩
      have hxavail2 : x ∈ (g sc2.1).map Prod.fst :=
        List.mem_of_mem_take hxseg
      have hscne : sc.1 ≠ sc2.1 := by
        intro heq
        exact hplan.1 (heq ▸ List.mem_map_of_mem Prod.fst hsc2)
      exact hdisj sc.1 sc2.1 hscne x hxavail hxavail2

/-! ### Concrete tier sizes and sorted picks -/

theorem freqTable_countP_main (nums : List Nat) (dc : Nat) :
    (freqTable nums dc 50).countP (fun e => e.status == "hot") = 10 ∧
    (freqTable nums dc 50).countP (fun e => e.status == "warm") = 15 ∧
    (freqTable nums dc 50).countP (fun e => e.status == "cool") = 15 ∧
    (freqTable nums dc 50).countP (fun e => e.status == "cold") = 10 := by
  refine ⟨?_, ?_, ?_, ?_⟩ <;> rw [freqTable_countP] <;> decide

theorem freqTable_countP_stars (nums : List Nat) (dc : Nat) :
    (freqTable nums dc 12).countP (fun e => e.status == "hot") = 2 ∧
    (freqTable nums dc 12).countP (fun e => e.status == "warm") = 3 ∧
    (freqTable nums dc 12).countP (fun e => e.status == "cool") = 3 ∧
    (freqTable nums dc 12).countP (fun e => e.status == "cold") = 4 := by
  refine ⟨?_, ?_, ?_, ?_⟩ <;> rw [freqTable_countP] <;> decide

theorem group_length_main (nums : List Nat) (dc : Nat) :
    (group_by_status (freqTable nums dc 50) "hot").length = 10 ∧
    (group_by_status (freqTable nums dc 50) "warm").length = 15 ∧
    (group_by_status (freqTable nums dc 50) "cool").length = 15 ∧
    (group_by_status (freqTable nums dc 50) "cold").length = 10 := by
  have h := freqTable_countP_main nums dc
  exact ⟨by rw [group_by_status_length, h.1], by rw [group_by_status_length, h.2.1],
    by rw [group_by_status_length, h.2.2.1], by rw [group_by_status_length, h.2.2.2]⟩

theorem group_length_stars (nums : List Nat) (dc : Nat) :
    (group_by_status (freqTable nums dc 12) "hot").length = 2 ∧
    (group_by_status (freqTable nums dc 12) "warm").length = 3 ∧
    (group_by_status (freqTable nums dc 12) "cool").length = 3 ∧
    (group_by_status (freqTable nums dc 12) "cold").length = 4 := by
  have h := freqTable_countP_stars nums dc
  exact ⟨by rw [group_by_status_length, h.1], by rw [group_by_status_length, h.2.1],
    by rw [group_by_status_length, h.2.2.1], by rw [group_by_status_length, h.2.2.2]⟩

theorem sorted_lt_of_le_nodup (l : List Nat) (h1 : l.Sorted (· ≤ ·)) (h2 : l.Nodup) :
    l.Sorted (· < ·) :=
  (h1.and h2).imp (fun h => Nat.lt_of_le_of_ne h.1 h.2)

theorem family_picks_spec (nums : List Nat) (dc mx : Nat) (plan : List (String × Nat))
    (hplan : (plan.map Prod.fst).Nodup)
    (hlen : ∀ sc ∈ plan, sc.2 ≤ (group_by_status (freqTable nums dc mx) sc.1).length) :
    (List.insertionSort (· ≤ ·)
        (select_numbers (group_by_status (freqTable nums dc mx)) plan).1).length =
      (plan.map Prod.snd).sum ∧
    (List.insertionSort (· ≤ ·)
        (select_numbers (group_by_status (freqTable nums dc mx)) plan).1).Nodup ∧
    (List.insertionSort (· ≤ ·)
        (select_numbers (group_by_status (freqTable nums dc mx)) plan).1).Sorted (· < ·) := by
  have hl := select_numbers_length _ plan hlen
  have hn := select_numbers_nodup _ plan hplan (group_avail_nodup nums dc mx)
    (group_avail_disjoint nums dc mx)
  have hperm := List.perm_insertionSort (· ≤ ·)
    (select_numbers (group_by_status (freqTable nums dc mx)) plan).1
  have hnd2 := hperm.nodup_iff.mpr hn
  exact ⟨hperm.length_eq.trans hl, hnd2,
    sorted_lt_of_le_nodup _ (List.sorted_insertionSort _ _) hnd2⟩

theorem freqTable_isEmpty_false (nums : List Nat) (dc mx : Nat) (h : 0 < mx) :
    (freqTable nums dc mx).isEmpty = false := by
  rcases h2 : freqTable nums dc mx with _ | ⟨a, t⟩
  · have hl := freqTable_length nums dc mx
    rw [h2] at hl
    simp at hl
    omega
  · rfl

theorem get_hot_cold_ok (today : Int) (draws : List Draw) (tp strategy : String)
    (hne : draws ≠ []) (hv : ∀ d ∈ draws, validDraw d)
    (hf : (filter_by_time_period today draws tp).1 ≠ []) :
    get_hot_cold_recommendations today draws tp strategy =
      .ok ({ main_numbers := List.insertionSort (· ≤ ·)
               (select_numbers (group_by_status
                 (freqTable (familyNumbers (filter_by_time_period today draws tp).1 "main")
                   ((filter_by_time_period today draws tp).1.length * NUM_MAIN_NUMBERS) 50))
                 (strategyMainPlan strategy)).1
             lucky_stars := List.insertionSort (· ≤ ·)
               (select_numbers (group_by_status
                 (freqTable (familyNumbers (filter_by_time_period today draws tp).1 "lucky_stars")
                   ((filter_by_time_period today draws tp).1.length * NUM_LUCKY_STARS) 12))
                 (strategyStarPlan strategy)).1
             time_period := tp
             strategy := strategy },
           (select_numbers (group_by_status
               (freqTable (familyNumbers (filter_by_time_period today draws tp).1 "main")
                 ((filter_by_time_period today draws tp).1.length * NUM_MAIN_NUMBERS) 50))
               (strategyMainPlan strategy)).2 ++
             (select_numbers (group_by_status
               (freqTable (familyNumbers (filter_by_time_period today draws tp).1 "lucky_stars")
                 ((filter_by_time_period today draws tp).1.length * NUM_LUCKY_STARS) 12))
               (strategyStarPlan strategy)).2) := by
  unfold get_hot_cold_recommendations
  rw [analyze_ok today draws tp hne hv hf]
  simp only [freqTable_isEmpty_false _ _ 50 (by omega), freqTable_isEmpty_false _ _ 12 (by omega),
    Bool.or_self, Bool.false_eq_true, if_false]

/-! ## Claim theorems -/

/-- C2 (amended): for every non-empty draw history of well-formed draws,
every time window WHOSE FILTERED DRAW SET IS NON-EMPTY, and every built-in
strategy, `get_hot_cold_recommendations` returns exactly 5 main numbers and
exactly 2 lucky stars, each list without duplicates and strictly ascending.
(The non-empty-filter hypothesis is forced: when the window filters out
every draw the code raises ZeroDivisionError, see the counterexample.) -/
theorem claim2_recommendation_shape (today : Int) (draws : List Draw)
    (tp strategy : String)
    (hne : draws ≠ []) (hv : ∀ d ∈ draws, validDraw d)
    (hf : (filter_by_time_period today draws tp).1 ≠ [])
    (hstr : strategy = "hot" ∨ strategy = "cold" ∨ strategy = "mixed" ∨
      strategy = "balanced") :
    ∃ rec warns,
      get_hot_cold_recommendations today draws tp strategy = .ok (rec, warns) ∧
      rec.main_numbers.length = 5 ∧ rec.main_numbers.Nodup ∧
      rec.main_numbers.Sorted (· < ·) ∧
      rec.lucky_stars.length = 2 ∧ rec.lucky_stars.Nodup ∧
      rec.lucky_stars.Sorted (· < ·) := by
  have hplanM : ((strategyMainPlan strategy).map Prod.fst).Nodup := by
    rcases hstr with h | h | h | h <;> subst h <;> decide
  have hplanS : ((strategyStarPlan strategy).map Prod.fst).Nodup := by
    rcases hstr with h | h | h | h <;> subst h <;> decide
  have hsumM : ((strategyMainPlan strategy).map Prod.snd).sum = 5 := by
    rcases hstr with h | h | h | h <;> subst h <;> decide
  have hsumS : ((strategyStarPlan strategy).map Prod.snd).sum = 2 := by
    rcases hstr with h | h | h | h <;> subst h <;> decide
  have hlenM : ∀ sc ∈ strategyMainPlan strategy,
      sc.2 ≤ (group_by_status
        (freqTable (familyNumbers (filter_by_time_period today draws tp).1 "main")
          ((filter_by_time_period today draws tp).1.length * NUM_MAIN_NUMBERS) 50) sc.1).length := by
    intro sc hsc
    rw [group_by_status_length, freqTable_countP]
    revert sc hsc
    rcases hstr with h | h | h | h <;> subst h <;> decide
  have hlenS : ∀ sc ∈ strategyStarPlan strategy,
      sc.2 ≤ (group_by_status
        (freqTable (familyNumbers (filter_by_time_period today draws tp).1 "lucky_stars")
          ((filter_by_time_period today draws tp).1.length * NUM_LUCKY_STARS) 12) sc.1).length := by
    intro sc hsc
    rw [group_by_status_length, freqTable_countP]
    revert sc hsc
    rcases hstr with h | h | h | h <;> subst h <;> decide
  have hm := family_picks_spec
    (familyNumbers (filter_by_time_period today draws tp).1 "main")
    ((filter_by_time_period today draws tp).1.length * NUM_MAIN_NUMBERS) 50
    (strategyMainPlan strategy) hplanM hlenM
  have hst := family_picks_spec
    (familyNumbers (filter_by_time_period today draws tp).1 "lucky_stars")
    ((filter_by_time_period today draws tp).1.length * NUM_LUCKY_STARS) 12
    (strategyStarPlan strategy) hplanS hlenS
  refine ⟨_, _, get_hot_cold_ok today draws tp strategy hne hv hf,
    hm.1.trans hsumM, hm.2.1, hm.2.2, hst.1.trans hsumS, hst.2.1, hst.2.2⟩

/-- C2 counterexample: on a non-empty history whose only draw is 200 days
old, the THREE_MONTHS window filters out everything and
`get_hot_cold_recommendations` raises ZeroDivisionError instead of
returning a 5-number recommendation, so the claim quantified over every
time window is false. -/
theorem claim2_counterexample :
    get_hot_cold_recommendations 0 [⟨-200, [1, 2, 3, 4, 5], [1, 2]⟩] "3months" "hot" =
      .error "ZeroDivisionError" := by
  rfl

/-- Witness for C2 at a concrete input. -/
theorem claim2_recommendation_shape_witness :
    ∃ rec warns,
      get_hot_cold_recommendations 0 [⟨0, [1, 2, 3, 4, 5], [1, 2]⟩] "all" "hot" =
        .ok (rec, warns) ∧
      rec.main_numbers.length = 5 ∧ rec.main_numbers.Nodup ∧
      rec.main_numbers.Sorted (· < ·) ∧
      rec.lucky_stars.length = 2 ∧ rec.lucky_stars.Nodup ∧
      rec.lucky_stars.Sorted (· < ·) :=
  claim2_recommendation_shape 0 [⟨0, [1, 2, 3, 4, 5], [1, 2]⟩] "all" "hot"
    (by decide) (by decide) (by decide) (Or.inl rfl)

/-- C1: the claim says an all-filtered-out window yields an empty frequency
table; in the code the percentage computation `count / draws_count * 100`
divides by zero (`draws_count = 0`) and `analyze_number_frequency` raises
ZeroDivisionError instead.  This theorem evaluates the code on that path:
for every non-empty history whose filtered set is empty the result is the
ZeroDivisionError, never a table. -/
theorem claim1_empty_filter_zero_division (today : Int) (draws : List Draw) (tp : String)
    (hne : draws ≠ []) (hf : (filter_by_time_period today draws tp).1 = []) :
    analyze_number_frequency today draws tp = .error "ZeroDivisionError" := by
  have hlen : ¬(draws.length = 0) := by
    simpa [List.length_eq_zero] using hne
  unfold analyze_number_frequency
  rw [if_neg hlen, hf]
  rfl

/-- Witness for C1 at a concrete input: one draw, 200 days old, window of
91 days. -/
theorem claim1_empty_filter_zero_division_witness :
    ([⟨-200, [1, 2, 3, 4, 5], [1, 2]⟩] : List Draw) ≠ [] ∧
    (filter_by_time_period 0 [⟨-200, [1, 2, 3, 4, 5], [1, 2]⟩] "3months").1 = [] ∧
    analyze_number_frequency 0 [⟨-200, [1, 2, 3, 4, 5], [1, 2]⟩] "3months" =
      .error "ZeroDivisionError" :=
  ⟨by decide, by decide,
    claim1_empty_filter_zero_division 0 [⟨-200, [1, 2, 3, 4, 5], [1, 2]⟩] "3months"
      (by decide) (by decide)⟩

/-- C6: with fewer than `lookback + 10` draws, `generate_prediction_model`
returns the typed insufficient-data result (`success` False, error string
"Insufficient data") through the early guard, raising nothing. -/
theorem claim6_insufficient_data (draws : List Draw) (lookback_periods : Nat)
    (h : draws.length < lookback_periods + 10) :
    generate_prediction_model draws lookback_periods =
      PredictionOutcome.insufficientData := by
  unfold generate_prediction_model
  rw [if_pos h]

/-- Witness for C6: lookback 10 with exactly 19 draws. -/
theorem claim6_insufficient_data_witness :
    (List.replicate 19 (⟨0, [1, 2, 3, 4, 5], [1, 2]⟩ : Draw)).length < 10 + 10 ∧
    generate_prediction_model (List.replicate 19 ⟨0, [1, 2, 3, 4, 5], [1, 2]⟩) 10 =
      PredictionOutcome.insufficientData :=
  ⟨by decide, claim6_insufficient_data _ 10 (by decide)⟩

/-- C8: the THREE_MONTHS window keeps exactly the draws dated at least
`today - 91`; the boundary draw dated exactly 91 days before today is kept
and draws more than 91 days old are excluded. -/
theorem claim8_three_months_boundary (today : Int) (draws : List Draw) :
    (filter_by_time_period today draws "3months").1 =
      draws.filter (fun d => decide (today - 91 ≤ d.draw_date)) ∧
    (∀ d ∈ draws, d.draw_date = today - 91 →
      d ∈ (filter_by_time_period today draws "3months").1) ∧
    (∀ d ∈ draws, d.draw_date < today - 91 →
      d ∉ (filter_by_time_period today draws "3months").1) := by
  have h1 : (filter_by_time_period today draws "3months").1 =
      draws.filter (fun d => decide (today - 91 ≤ d.draw_date)) := rfl
  refine ⟨h1, ?_, ?_⟩
  · intro d hd hdate
    rw [h1]
    refine List.mem_filter.mpr ⟨hd, ?_⟩
    rw [hdate]
    simp
  · intro d hd hdate hmem
    rw [h1] at hmem
    have h2 := (List.mem_filter.mp hmem).2
    simp only [decide_eq_true_eq] at h2
    omega

/-- Witness for C8 at concrete draws on both sides of the boundary. -/
theorem claim8_three_months_boundary_witness :
    (⟨-91, [1, 2, 3, 4, 5], [1, 2]⟩ : Draw) ∈
      (filter_by_time_period 0 [⟨-91, [1, 2, 3, 4, 5], [1, 2]⟩,
        ⟨-92, [6, 7, 8, 9, 10], [3, 4]⟩] "3months").1 ∧
    (⟨-92, [6, 7, 8, 9, 10], [3, 4]⟩ : Draw) ∉
      (filter_by_time_period 0 [⟨-91, [1, 2, 3, 4, 5], [1, 2]⟩,
        ⟨-92, [6, 7, 8, 9, 10], [3, 4]⟩] "3months").1 :=
  ⟨(claim8_three_months_boundary 0 _).2.1 _ (by decide) (by decide),
   (claim8_three_months_boundary 0 _).2.2 _ (by decide) (by decide)⟩

/-- C9: an unrecognized time-period token returns the full history with a
warning and no error, so frequency analysis on it coincides with the ALL
window. -/
theorem claim9_unknown_window (today : Int) (draws : List Draw) (tp : String)
    (h1 : tp ≠ "all") (h2 : tp ≠ "10years") (h3 : tp ≠ "year") (h4 : tp ≠ "6months")
    (h5 : tp ≠ "3months") :
    filter_by_time_period today draws tp =
      (draws, ["Unknown time period: " ++ tp ++ ", using all data"]) ∧
    analyze_number_frequency today draws tp = analyze_number_frequency today draws "all" := by
  have hf : filter_by_time_period today draws tp =
      (draws, ["Unknown time period: " ++ tp ++ ", using all data"]) := by
    unfold filter_by_time_period
    rw [if_neg h1, if_neg h2, if_neg h3, if_neg h4, if_neg h5]
  refine ⟨hf, ?_⟩
  have e1 : (filter_by_time_period today draws tp).1 = draws := by rw [hf]
  have e2 : (filter_by_time_period today draws "all").1 = draws := rfl
  unfold analyze_number_frequency
  rw [e1, e2]

/-- Witness for C9 with the unknown token "weekly". -/
theorem claim9_unknown_window_witness :
    filter_by_time_period 0 [⟨0, [1, 2, 3, 4, 5], [1, 2]⟩] "weekly" =
      ([⟨0, [1, 2, 3, 4, 5], [1, 2]⟩], ["Unknown time period: weekly, using all data"]) ∧
    analyze_number_frequency 0 [⟨0, [1, 2, 3, 4, 5], [1, 2]⟩] "weekly" =
      analyze_number_frequency 0 [⟨0, [1, 2, 3, 4, 5], [1, 2]⟩] "all" :=
  claim9_unknown_window 0 [⟨0, [1, 2, 3, 4, 5], [1, 2]⟩] "weekly"
    (by decide) (by decide) (by decide) (by decide) (by decide)

/-- C10: every strategy string other than hot, cold and mixed takes the
balanced else-branch: up to the echoed strategy tag, the result (numbers,
window tag, and shortfall warnings) is identical to an explicit balanced
request, with no extra diagnostic. -/
theorem claim10_unknown_strategy_balanced (today : Int) (draws : List Draw) (tp s : String)
    (h1 : s ≠ "hot") (h2 : s ≠ "cold") (h3 : s ≠ "mixed") :
    stripStrategy (get_hot_cold_recommendations today draws tp s) =
      stripStrategy (get_hot_cold_recommendations today draws tp "balanced") := by
  have hmp : strategyMainPlan s = strategyMainPlan "balanced" := by
    unfold strategyMainPlan
    rw [if_neg h1, if_neg h2, if_neg h3]
    rfl
  have hsp : strategyStarPlan s = strategyStarPlan "balanced" := by
    unfold strategyStarPlan
    rw [if_neg h1, if_neg h2, if_neg h3]
    rfl
  unfold get_hot_cold_recommendations
  simp only [hmp, hsp]
  generalize analyze_number_frequency today draws tp = r
  rcases r with e | ms
  · rfl
  · rcases ms with ⟨m, st⟩
    dsimp only
    by_cases he : (m.isEmpty || st.isEmpty) = true
    · rw [if_pos he, if_pos he]
    · rw [if_neg he, if_neg he]
      rfl

/-- Witness for C10 with the unknown strategy "random". -/
theorem claim10_unknown_strategy_balanced_witness :
    ("random" ≠ "hot") ∧ ("random" ≠ "cold") ∧ ("random" ≠ "mixed") ∧
    stripStrategy (get_hot_cold_recommendations 0 [⟨0, [1, 2, 3, 4, 5], [1, 2]⟩]
        "all" "random") =
      stripStrategy (get_hot_cold_recommendations 0 [⟨0, [1, 2, 3, 4, 5], [1, 2]⟩]
        "all" "balanced") :=
  ⟨by decide, by decide, by decide,
    claim10_unknown_strategy_balanced 0 [⟨0, [1, 2, 3, 4, 5], [1, 2]⟩] "all" "random"
      (by decide) (by decide) (by decide)⟩

theorem tierLevel_statusForIndex (mx i : Nat) :
    tierLevel (statusForIndex mx i) =
      if i < hot_count mx then 0
      else if i < hot_count mx + warm_count mx then 1
      else if i < hot_count mx + warm_count mx + cool_count mx then 2
      else 3 := by
  unfold statusForIndex
  split_ifs <;> rfl

theorem tierLevel_statusForIndex_mono (mx i j : Nat) (hij : i ≤ j) :
    tierLevel (statusForIndex mx i) ≤ tierLevel (statusForIndex mx j) := by
  rw [tierLevel_statusForIndex, tierLevel_statusForIndex]
  split_ifs <;> omega

/-- C5: the descending sort on counts is stable over the ascending key
order of the frequency dictionary: two numbers `a < b` with equal counts
keep that order, `a` is ranked before `b`, and the tier of `a` is at least
as hot as the tier of `b`. -/
theorem claim5_stable_tie_break (nums : List Nat) (mx a b : Nat)
    (ha : 1 ≤ a) (hab : a < b) (hb : b ≤ mx)
    (hc : nums.count a = nums.count b) :
    rank nums mx a < rank nums mx b ∧
    tierLevel (statusForIndex mx (rank nums mx a)) ≤
      tierLevel (statusForIndex mx (rank nums mx b)) := by
  have hamem : a ∈ List.range' 1 mx := List.mem_range'_1.mpr ⟨ha, by omega⟩
  have hbmem : b ∈ List.range' 1 mx := List.mem_range'_1.mpr ⟨by omega, by omega⟩
  have hla := rank_lt_length nums mx a hamem
  have hlb := rank_lt_length nums mx b hbmem
  have hga := rank_get_eq nums mx a hamem hla
  have hgb := rank_get_eq nums mx b hbmem hlb
  have hpw := sorted_numbers_pairwise nums mx
  have hr : rank nums mx a < rank nums mx b := by
    rcases Nat.lt_trichotomy (rank nums mx a) (rank nums mx b) with h | h | h
    · exact h
    · exact absurd (rank_inj nums mx a hamem b hbmem h) (by omega)
    · exfalso
      have h2 := List.pairwise_iff_get.1 hpw ⟨rank nums mx b, hlb⟩ ⟨rank nums mx a, hla⟩ h
      rw [hga, hgb] at h2
      rcases h2 with h2 | ⟨h2, h3⟩
      · simp only at h2
        omega
      · simp only at h2 h3
        omega
  exact ⟨hr, tierLevel_statusForIndex_mono mx _ _ (Nat.le_of_lt hr)⟩

/-- Witness for C5: with no draws at all, numbers 1 and 2 have equal count
zero and 1 is ranked strictly before 2. -/
theorem claim5_stable_tie_break_witness :
    (1 : Nat) ≤ 1 ∧ (1 : Nat) < 2 ∧ (2 : Nat) ≤ 12 ∧
      (List.count 1 ([] : List Nat) = List.count 2 ([] : List Nat)) ∧
    (rank [] 12 1 < rank [] 12 2 ∧
      tierLevel (statusForIndex 12 (rank [] 12 1)) ≤
        tierLevel (statusForIndex 12 (rank [] 12 2))) :=
  ⟨by decide, by decide, by decide, by decide,
    claim5_stable_tie_break [] 12 1 2 (by decide) (by decide) (by decide) (by decide)⟩

theorem count_number_frequency_sum (df : List Draw) (nt : String) (mx k : Nat)
    (tbl : List FreqEntry)
    (hm : count_number_frequency df nt mx = .ok tbl)
    (hk : ∀ d ∈ df, (drawNumbers nt d).length = k) :
    (tbl.map (fun e => e.count)).sum = df.length * k := by
  unfold count_number_frequency at hm
  by_cases hany : ((familyNumbers df nt).any
      (fun n => decide (n < 1) || decide (mx < n))) = true
  · rw [if_pos hany] at hm
    cases hm
  · rw [if_neg hany] at hm
    by_cases hdc : (if nt = "main" then df.length * NUM_MAIN_NUMBERS
        else df.length * NUM_LUCKY_STARS) = 0
    · rw [if_pos hdc] at hm
      cases hm
    · rw [if_neg hdc] at hm
      injection hm with hm1
      subst hm1
      have hmap : (freqTable (familyNumbers df nt)
            (if nt = "main" then df.length * NUM_MAIN_NUMBERS else df.length * NUM_LUCKY_STARS)
            mx).map (fun e => e.count) =
          (List.range' 1 mx).map (fun n => (familyNumbers df nt).count n) := by
        unfold freqTable
        rw [List.map_map]
        rfl
      rw [hmap]
      have hmem : ∀ y ∈ familyNumbers df nt, y ∈ List.range' 1 mx := by
        intro y hy
        have hy2 : ¬((fun n => decide (n < 1) || decide (mx < n)) y = true) := by
          intro hcontra
          rw [Bool.not_eq_true, List.any_eq_false] at hany
          exact absurd hcontra (hany y hy)
        simp only [Bool.or_eq_true, decide_eq_true_eq] at hy2
        rw [List.mem_range'_1]
        omega
      rw [sum_counts (List.range' 1 mx) (List.nodup_range' 1 mx) _ hmem]
      exact familyNumbers_length df nt k hk

theorem validDraw_main_length (d : Draw) (hd : validDraw d) :
    (drawNumbers "main" d).length = 5 := by
  unfold drawNumbers
  rw [if_pos rfl]
  exact hd.1

theorem validDraw_stars_length (d : Draw) (hd : validDraw d) :
    (drawNumbers "lucky_stars" d).length = 2 := by
  unfold drawNumbers
  rw [if_neg (by decide : ¬("lucky_stars" = "main"))]
  exact hd.2.2.2.1

/-- C4: whenever `analyze_number_frequency` returns tables, the counts in
each table sum to the number of filtered draws times the numbers each draw
contributes to the family (5 for main, 2 for stars). -/
theorem claim4_count_sum (today : Int) (draws : List Draw) (tp : String)
    (m s : List FreqEntry) (hv : ∀ d ∈ draws, validDraw d)
    (h : analyze_number_frequency today draws tp = .ok (m, s)) :
    (m.map (fun e => e.count)).sum =
      (filter_by_time_period today draws tp).1.length * NUM_MAIN_NUMBERS ∧
    (s.map (fun e => e.count)).sum =
      (filter_by_time_period today draws tp).1.length * NUM_LUCKY_STARS := by
  by_cases hlen : draws.length = 0
  · have hd : draws = [] := List.length_eq_zero.mp hlen
    subst hd
    have hdetail : analyze_number_frequency today [] tp = .ok ([], []) := rfl
    rw [hdetail] at h
    injection h with h1
    have hm : m = [] := (congrArg Prod.fst h1).symm
    have hs : s = [] := (congrArg Prod.snd h1).symm
    subst hm
    subst hs
    have hfe : (filter_by_time_period today [] tp).1 = [] := by
      have hsub := filter_by_time_period_subset today [] tp
      exact List.eq_nil_iff_forall_not_mem.mpr
        (fun x hx => (List.not_mem_nil x) (hsub hx))
    rw [hfe]
    simp
  · unfold analyze_number_frequency at h
    rw [if_neg hlen] at h
    rcases hcm : count_number_frequency (filter_by_time_period today draws tp).1
        "main" MAX_MAIN_NUMBER with e | tm
    · rw [hcm] at h
      cases h
    · rw [hcm] at h
      rcases hcs : count_number_frequency (filter_by_time_period today draws tp).1
          "lucky_stars" MAX_LUCKY_STAR with e | ts
      · rw [hcs] at h
        cases h
      · rw [hcs] at h
        injection h with h1
        have hm2 : m = tm := (congrArg Prod.fst h1).symm
        have hs2 : s = ts := (congrArg Prod.snd h1).symm
        have hvf : ∀ d ∈ (filter_by_time_period today draws tp).1, validDraw d :=
          fun d hd => hv d (filter_by_time_period_subset today draws tp hd)
        rw [hm2, hs2]
        exact ⟨count_number_frequency_sum _ "main" MAX_MAIN_NUMBER 5 tm hcm
            (fun d hd => validDraw_main_length d (hvf d hd)),
          count_number_frequency_sum _ "lucky_stars" MAX_LUCKY_STAR 2 ts hcs
            (fun d hd => validDraw_stars_length d (hvf d hd))⟩

/-- Witness for C4 at a concrete two-draw history. -/
theorem claim4_count_sum_witness :
    ((freqTable (familyNumbers [(⟨0, [1, 2, 3, 4, 5], [1, 2]⟩ : Draw),
        ⟨-1, [4, 5, 6, 7, 8], [3, 4]⟩] "main") 10 50).map (fun e => e.count)).sum =
      (filter_by_time_period 0 [(⟨0, [1, 2, 3, 4, 5], [1, 2]⟩ : Draw),
        ⟨-1, [4, 5, 6, 7, 8], [3, 4]⟩] "all").1.length * NUM_MAIN_NUMBERS :=
  (claim4_count_sum 0 [⟨0, [1, 2, 3, 4, 5], [1, 2]⟩, ⟨-1, [4, 5, 6, 7, 8], [3, 4]⟩] "all"
    (freqTable (familyNumbers [⟨0, [1, 2, 3, 4, 5], [1, 2]⟩,
      ⟨-1, [4, 5, 6, 7, 8], [3, 4]⟩] "main") 10 50)
    (freqTable (familyNumbers [⟨0, [1, 2, 3, 4, 5], [1, 2]⟩,
      ⟨-1, [4, 5, 6, 7, 8], [3, 4]⟩] "lucky_stars") 4 12)
    (by decide) (by rfl)).1

/-- C3: for every non-empty well-formed draw set the tier assignment
partitions the whole domain: the table is keyed by exactly 1..MAX in order,
every entry carries exactly one of the four tiers, and the tier sizes are
`hot_count`/`warm_count`/`cool_count`/remainder, concretely 10/15/15/10 for
main (MAX 50) and 2/3/3/4 for stars (MAX 12), summing to MAX. -/
theorem claim3_tier_partition (df : List Draw) (hne : df ≠ [])
    (hv : ∀ d ∈ df, validDraw d) :
    (count_number_frequency df "main" MAX_MAIN_NUMBER =
        .ok (freqTable (familyNumbers df "main") (df.length * NUM_MAIN_NUMBERS) 50) ∧
      (freqTable (familyNumbers df "main") (df.length * NUM_MAIN_NUMBERS) 50).map
          (fun e => e.num) = List.range' 1 50 ∧
      (∀ e ∈ freqTable (familyNumbers df "main") (df.length * NUM_MAIN_NUMBERS) 50,
        e.status = "hot" ∨ e.status = "warm" ∨ e.status = "cool" ∨ e.status = "cold") ∧
      (freqTable (familyNumbers df "main") (df.length * NUM_MAIN_NUMBERS) 50).countP
          (fun e => e.status == "hot") = hot_count 50 ∧
      (freqTable (familyNumbers df "main") (df.length * NUM_MAIN_NUMBERS) 50).countP
          (fun e => e.status == "warm") = warm_count 50 ∧
      (freqTable (familyNumbers df "main") (df.length * NUM_MAIN_NUMBERS) 50).countP
          (fun e => e.status == "cool") = cool_count 50 ∧
      (freqTable (familyNumbers df "main") (df.length * NUM_MAIN_NUMBERS) 50).countP
          (fun e => e.status == "cold") =
        50 - (hot_count 50 + warm_count 50 + cool_count 50) ∧
      hot_count 50 = 10 ∧ warm_count 50 = 15 ∧ cool_count 50 = 15) ∧
    (count_number_frequency df "lucky_stars" MAX_LUCKY_STAR =
        .ok (freqTable (familyNumbers df "lucky_stars") (df.length * NUM_LUCKY_STARS) 12) ∧
      (freqTable (familyNumbers df "lucky_stars") (df.length * NUM_LUCKY_STARS) 12).map
          (fun e => e.num) = List.range' 1 12 ∧
      (∀ e ∈ freqTable (familyNumbers df "lucky_stars") (df.length * NUM_LUCKY_STARS) 12,
        e.status = "hot" ∨ e.status = "warm" ∨ e.status = "cool" ∨ e.status = "cold") ∧
      (freqTable (familyNumbers df "lucky_stars") (df.length * NUM_LUCKY_STARS) 12).countP
          (fun e => e.status == "hot") = hot_count 12 ∧
      (freqTable (familyNumbers df "lucky_stars") (df.length * NUM_LUCKY_STARS) 12).countP
          (fun e => e.status == "warm") = warm_count 12 ∧
      (freqTable (familyNumbers df "lucky_stars") (df.length * NUM_LUCKY_STARS) 12).countP
          (fun e => e.status == "cool") = cool_count 12 ∧
      (freqTable (familyNumbers df "lucky_stars") (df.length * NUM_LUCKY_STARS) 12).countP
          (fun e => e.status == "cold") =
        12 - (hot_count 12 + warm_count 12 + cool_count 12) ∧
      hot_count 12 = 2 ∧ warm_count 12 = 3 ∧ cool_count 12 = 3) := by
  have hmain := freqTable_countP_main (familyNumbers df "main") (df.length * NUM_MAIN_NUMBERS)
  have hstar := freqTable_countP_stars (familyNumbers df "lucky_stars")
    (df.length * NUM_LUCKY_STARS)
  refine ⟨⟨count_number_frequency_main_ok df hne hv, freqTable_map_num _ _ _,
      freqTable_status_cases _ _ _, ?_, ?_, ?_, ?_, rfl, rfl, rfl⟩,
    ⟨count_number_frequency_stars_ok df hne hv, freqTable_map_num _ _ _,
      freqTable_status_cases _ _ _, ?_, ?_, ?_, ?_, rfl, rfl, rfl⟩⟩
  · rw [hmain.1]
    rfl
  · rw [hmain.2.1]
    rfl
  · rw [hmain.2.2.1]
    rfl
  · rw [hmain.2.2.2]
    rfl
  · rw [hstar.1]
    rfl
  · rw [hstar.2.1]
    rfl
  · rw [hstar.2.2.1]
    rfl
  · rw [hstar.2.2.2]
    rfl

/-- Witness for C3 at a concrete one-draw history. -/
theorem claim3_tier_partition_witness :
    count_number_frequency [(⟨0, [1, 2, 3, 4, 5], [1, 2]⟩ : Draw)] "main" MAX_MAIN_NUMBER =
        .ok (freqTable (familyNumbers [(⟨0, [1, 2, 3, 4, 5], [1, 2]⟩ : Draw)] "main")
          ([(⟨0, [1, 2, 3, 4, 5], [1, 2]⟩ : Draw)].length * NUM_MAIN_NUMBERS) 50) ∧
    (freqTable (familyNumbers [(⟨0, [1, 2, 3, 4, 5], [1, 2]⟩ : Draw)] "main")
        ([(⟨0, [1, 2, 3, 4, 5], [1, 2]⟩ : Draw)].length * NUM_MAIN_NUMBERS) 50).countP
      (fun e => e.status == "hot") = hot_count 50 :=
  ⟨(claim3_tier_partition [⟨0, [1, 2, 3, 4, 5], [1, 2]⟩] (by decide) (by decide)).1.1,
   (claim3_tier_partition [⟨0, [1, 2, 3, 4, 5], [1, 2]⟩] (by decide) (by decide)).1.2.2.2.1⟩

theorem pythonSetList_aux (l : List Nat) :
    ∀ acc : List Nat, acc.Nodup →
      (l.foldl (fun acc x => if x ∈ acc then acc else acc ++ [x]) acc).Nodup := by
  induction l with
  | nil => exact fun acc h => h
  | cons x t ih =>
    intro acc h
    rw [List.foldl_cons]
    by_cases hx : x ∈ acc
    · rw [if_pos hx]
      exact ih acc h
    · rw [if_neg hx]
      apply ih
      rw [List.nodup_append]
      refine ⟨h, List.nodup_singleton x, fun a ha hb => ?_⟩
      rw [List.mem_singleton] at hb
      subst hb
      exact hx ha

theorem pythonSetList_nodup (l : List Nat) : (pythonSetList l).Nodup :=
  pythonSetList_aux l [] List.nodup_nil

theorem fillUnique_spec (rng : Nat → Nat) (mx rc : Nat) :
    ∀ (fuel k : Nat) (acc l : List Nat),
      fillUnique rng mx rc fuel k acc = some l →
      (rc ≤ l.length ∧
       (rc ≤ acc.length → l = acc) ∧
       (acc.length < rc → l.length = rc) ∧
       (∃ t, l = acc ++ t ∧ ∀ x ∈ t, 1 ≤ x ∧ (1 ≤ mx → x ≤ mx)) ∧
       (acc.Nodup → l.Nodup)) := by
  intro fuel
  induction fuel with
  | zero =>
    intro k acc l h
    unfold fillUnique at h
    by_cases hlt : acc.length < rc
    · rw [if_pos hlt] at h
      cases h
    · rw [if_neg hlt] at h
      injection h with h1
      subst h1
      exact ⟨Nat.le_of_not_lt hlt, fun _ => rfl, fun hlt2 => absurd hlt2 hlt,
        ⟨[], by simp, by simp⟩, fun hn => hn⟩
  | succ fuel ih =>
    intro k acc l h
    unfold fillUnique at h
    by_cases hlt : acc.length < rc
    · rw [if_pos hlt] at h
      by_cases hc : rng k % mx + 1 ∈ acc
      · rw [if_pos hc] at h
        have hres := ih (k + 1) acc l h
        exact ⟨hres.1, fun hge => absurd hlt (Nat.not_lt.mpr hge), hres.2.2.1,
          hres.2.2.2.1, hres.2.2.2.2⟩
      · rw [if_neg hc] at h
        have hres := ih (k + 1) (acc ++ [rng k % mx + 1]) l h
        obtain ⟨hr1, hr2, hr3, ⟨t, ht, htp⟩, hr5⟩ := hres
        refine ⟨hr1, fun hge => absurd hlt (Nat.not_lt.mpr hge), ?_, ?_, ?_⟩
        · intro _
          by_cases hlen2 : (acc ++ [rng k % mx + 1]).length < rc
          · exact hr3 hlen2
          · have hl2 := hr2 (Nat.le_of_not_lt hlen2)
            rw [hl2, List.length_append]
            rw [List.length_append] at hlen2
            simp only [List.length_singleton] at hlen2 ⊢
            omega
        · refine ⟨(rng k % mx + 1) :: t, ?_, ?_⟩
          · rw [ht, List.append_assoc]
            rfl
          · intro x hx
            rcases List.mem_cons.mp hx with hx1 | hx2
            · subst hx1
              refine ⟨by omega, fun hmx => ?_⟩
              have hmxpos : mx > 0 := by omega
              have := Nat.mod_lt (rng k) hmxpos
              omega
            · exact htp x hx2
        · intro hacc
          apply hr5
          rw [List.nodup_append]
          refine ⟨hacc, List.nodup_singleton _, fun a ha hb => ?_⟩
          rw [List.mem_singleton] at hb
          subst hb
          exact hc ha
    · rw [if_neg hlt] at h
      injection h with h1
      subst h1
      exact ⟨Nat.le_of_not_lt hlt, fun _ => rfl, fun hlt2 => absurd hlt2 hlt,
        ⟨[], by simp, by simp⟩, fun hn => hn⟩

/-- C7: whenever the gap-filling loop of `_ensure_unique_predictions`
terminates (the random stream provided enough fresh values within the
fuel), the result has exactly `required_count` elements, all distinct; and
on the spec example `[3,3,3,3,3]` with `required_count = 5`, `max = 50` the
first element is 3 and the rest are drawn from 1..50 excluding the values
already chosen. -/
theorem claim7_ensure_unique (rng : Nat → Nat) (fuel : Nat) (predictions : List Nat)
    (mx rc : Nat) (l : List Nat)
    (hpred : predictions ≠ []) (hrc : rc ≤ mx) (hmx : 1 ≤ mx)
    (h : ensure_unique_predictions rng fuel predictions mx rc = some l) :
    (l.length = rc ∧ l.Nodup) ∧
    (predictions = [3, 3, 3, 3, 3] → mx = 50 → rc = 5 →
      l.head? = some 3 ∧ ∀ x ∈ l.tail, 1 ≤ x ∧ x ≤ 50 ∧ x ≠ 3) := by
  unfold ensure_unique_predictions at h
  rcases hu : fillUnique rng mx rc fuel 0 (pythonSetList predictions) with _ | u
  · rw [hu] at h
    cases h
  · rw [hu] at h
    injection h with h1
    obtain ⟨hr1, hr2, hr3, ⟨t, ht, htp⟩, hr5⟩ :=
      fillUnique_spec rng mx rc fuel 0 (pythonSetList predictions) u hu
    have hund : u.Nodup := hr5 (pythonSetList_nodup predictions)
    subst h1
    constructor
    · constructor
      · by_cases hlen : rc < u.length
        · rw [if_pos hlen, List.length_take]
          omega
        · rw [if_neg hlen]
          omega
      · by_cases hlen : rc < u.length
        · rw [if_pos hlen]
          exact List.Sublist.nodup (List.take_sublist _ _) hund
        · rw [if_neg hlen]
          exact hund
    · intro hp hm hr
      subst hp
      subst hm
      subst hr
      have hps : pythonSetList [3, 3, 3, 3, 3] = [3] := rfl
      rw [hps] at ht
      have hnotin : (3 : Nat) ∉ t := by
        intro h3
        rw [ht] at hund
        exact (List.nodup_cons.mp hund).1 h3
      by_cases hlen : 5 < u.length
      · rw [if_pos hlen, ht]
        rw [show ([3] ++ t : List Nat) = 3 :: t from rfl, List.take_succ_cons]
        refine ⟨rfl, ?_⟩
        intro x hx
        rw [List.tail_cons] at hx
        have hxt : x ∈ t := List.mem_of_mem_take hx
        obtain ⟨hx1, hx2⟩ := htp x hxt
        exact ⟨hx1, hx2 (by omega), fun hx3 => hnotin (hx3 ▸ hxt)⟩
      · rw [if_neg hlen, ht]
        rw [show ([3] ++ t : List Nat) = 3 :: t from rfl]
        refine ⟨rfl, ?_⟩
        intro x hx
        rw [List.tail_cons] at hx
        obtain ⟨hx1, hx2⟩ := htp x hx
        exact ⟨hx1, hx2 (by omega), fun hx3 => hnotin (hx3 ▸ hx)⟩

/-- Witness for C7 with the raw stream `fun k => k`, which produces the
candidates 1, 2, 3, 4, 5, ... and yields `[3, 1, 2, 4, 5]`. -/
theorem claim7_ensure_unique_witness :
    ([3, 3, 3, 3, 3] : List Nat) ≠ [] ∧ (5 : Nat) ≤ 50 ∧ (1 : Nat) ≤ 50 ∧
    ensure_unique_predictions (fun k => k) 10 [3, 3, 3, 3, 3] 50 5 =
      some [3, 1, 2, 4, 5] ∧
    (([3, 1, 2, 4, 5] : List Nat).length = 5 ∧ ([3, 1, 2, 4, 5] : List Nat).Nodup) ∧
    (([3, 3, 3, 3, 3] : List Nat) = [3, 3, 3, 3, 3] → (50 : Nat) = 50 → (5 : Nat) = 5 →
      ([3, 1, 2, 4, 5] : List Nat).head? = some 3 ∧
      ∀ x ∈ ([3, 1, 2, 4, 5] : List Nat).tail, 1 ≤ x ∧ x ≤ 50 ∧ x ≠ 3) :=
  ⟨by decide, by decide, by decide, by decide,
    claim7_ensure_unique (fun k => k) 10 [3, 3, 3, 3, 3] 50 5 [3, 1, 2, 4, 5]
      (by decide) (by decide) (by decide) (by decide)⟩

end EuroMillions
